import Mathlib

/-!
Shallow embedding of the Soundsmith playback-queue core (src/soundsmith.ts,
first variant, lines 1-1034): the `SoundsmithConnection` session state machine
(queue, playback flags, `queueLock`, `skippedSong`, `processQueue`), the
`SoundObject` track descriptor with its one-shot lifecycle callback wrappers,
the skip / flag / shuffle operations, and the `calcTimeHMS` duration formatter.

Modelling conventions:
- JS arrays become `List`; `Math.random()*(n+1)` floored becomes a supplied
  pick in `Fin (n+1)` (a real `Math.random()` is in `[0,1)`, so the floor is
  always in `[0, n]`); the random source is a parameter of each operation that
  consumes it.
- `await`/promises: the code is cooperatively scheduled; each operation runs
  to completion, so operations are state transformers.  An exception that
  escapes a routine is modelled by the `Res.crashed` result (the state carried
  is the state left behind by the throwing routine).
- Lifecycle callbacks are observable effects: invoking the caller-supplied
  `onStart`/`onFinish`/`onError` appends the track to `startedLog` /
  `finishLog` / `errorLog` (or bumps a counter in the dedicated callback
  model used for the descriptor-construction claims).
- The unbounded recursion of `processQueue` (error path) is cut off by a fuel
  parameter; theorems supply enough fuel for the runs they describe.
-/

/-- Embedding of the `SoundObject` record (src/soundsmith.ts:331-350): the
immutable data fields of a track descriptor.  `volumeAdjust` is a rational
standing for the JS number.  The lifecycle callbacks are modelled separately
(see `FromState` and the session logs). -/
structure SoundObject where
  url : String
  title : String
  lengthSeconds : Nat
  user : String
  volumeAdjust : ℚ
  deriving Repr, DecidableEq

/-- A JS function value reachable from a wrapped lifecycle callback slot:
either the wrapper closure built in `SoundObject.from`
(src/soundsmith.ts:373-386) or the module-level `noop` (line 25). -/
inductive CbFn where
  | wrapper
  | noopFn
  deriving Repr, DecidableEq

/-- State of one lifecycle callback of one descriptor built by
`SoundObject.from` (src/soundsmith.ts:370-396).
`wrappedSlot` is the mutable property `wrappedMethods.onX` that the wrapper
closure reassigns to `noop` on first invocation; `descSlot` is the
descriptor's own property `this.onX`, which receives the wrapper function
VALUE when `...wrappedMethods` is spread into the constructor argument
(line 394) and is never reassigned afterwards; `userCalls` counts the
invocations of the caller-supplied `methods.onX`. -/
structure CallbackCell where
  wrappedSlot : CbFn
  descSlot : CbFn
  userCalls : Nat
  deriving Repr, DecidableEq

/-- Invoke a callback function value against a cell: `noop` does nothing; the
wrapper closure (src/soundsmith.ts:374-377 and its two siblings) first
reassigns `wrappedMethods.onX := noop` and then calls the caller-supplied
`methods.onX`. -/
def callCbFn : CbFn → CallbackCell → CallbackCell
  | CbFn.noopFn, c => c
  | CbFn.wrapper, c => { c with wrappedSlot := CbFn.noopFn, userCalls := c.userCalls + 1 }

/-- The cell for one callback right after `SoundObject.from` returns: the
wrapped slot holds the wrapper, the descriptor property holds the value copied
out of `wrappedMethods` at spread time - the wrapper - and the caller's
function has not yet run. -/
def freshCell : CallbackCell :=
  { wrappedSlot := CbFn.wrapper, descSlot := CbFn.wrapper, userCalls := 0 }

/-- Invoking the callback through the descriptor, as every call site in the
repository does (`metadata.onFinish()` line 107, `metadata.onStart()` line
111, `nextTrack.onError(...)` line 304): the function value invoked is the
one stored in the descriptor property. -/
def invokeViaDescriptor (c : CallbackCell) : CallbackCell :=
  callCbFn c.descSlot c

/-- Invoking the callback through the `wrappedMethods` object itself (no call
site in the repository does this; it is the path on which the reassignment
would be visible). -/
def invokeViaWrapped (c : CallbackCell) : CallbackCell :=
  callCbFn c.wrappedSlot c

/-- The three lifecycle callback cells of one descriptor built by
`SoundObject.from`: the three wrappers (onStart, onFinish, onError) are
syntactically identical, so each is an independent `CallbackCell`. -/
structure FromState where
  startCell : CallbackCell
  finishCell : CallbackCell
  errorCell : CallbackCell
  deriving Repr, DecidableEq

/-- Descriptor callback state right after `SoundObject.from` returns. -/
def freshFromState : FromState :=
  { startCell := freshCell, finishCell := freshCell, errorCell := freshCell }

/-- Embedding of `DEFAULT_VOLUME_LOG` (src/soundsmith.ts:27). -/
def DEFAULT_VOLUME_LOG : ℚ := 1/2

/-- Embedding of the relevant fields of a `YouTubeVideo` info record as
consumed by `SoundObject.from` (src/soundsmith.ts:388-393). -/
structure YouTubeVideo where
  title : Option String
  durationInSec : Nat
  url : String
  deriving Repr, DecidableEq

/-- Embedding of the data part of `SoundObject.from` combined with the private
constructor (src/soundsmith.ts:341-350 and 388-395).  `from` computes
`volumeAdjust ? volumeAdjust : DEFAULT_VOLUME_LOG` (a JS truthiness test: an
omitted argument and the number 0 are both falsy) and
`info.title ? info.title : "Untitled"`; the constructor then stores
`Math.min(1, volumeAdjust)`.  Named `fromInfo` because `from` is a reserved
word in Lean. -/
def SoundObject.fromInfo (info : YouTubeVideo) (user : String)
    (volumeAdjust : Option ℚ) : SoundObject :=
  let requested : ℚ :=
    match volumeAdjust with
    | some v => if v = 0 then DEFAULT_VOLUME_LOG else v
    | none => DEFAULT_VOLUME_LOG
  { url := info.url
    title := match info.title with
      | some t => t
      | none => "Untitled"
    lengthSeconds := info.durationInSec
    user := user
    volumeAdjust := min 1 requested }

/-- Embedding of `calcTimeHMS` (src/soundsmith.ts:884-895).  The arithmetic is
on non-negative integers, matching the integer `durationSeconds` inputs; the
padding of minutes is guarded by `hours > 0 && minutes < 10` exactly as in the
source. -/
def calcTimeHMS (lengthSeconds : Nat) : String :=
  let hours := lengthSeconds / 3600
  let minutes := (lengthSeconds - hours * 3600) / 60
  let seconds := lengthSeconds - hours * 3600 - minutes * 60
  let strHours := toString hours
  let strMinutes := if hours > 0 && minutes < 10 then "0" ++ toString minutes else toString minutes
  let strSeconds := if seconds < 10 then "0" ++ toString seconds else toString seconds
  (if hours > 0 then strHours ++ ":" else "") ++ strMinutes ++ ":" ++ strSeconds

/-- Status of the audio output sink as observed by the session
(`AudioPlayerStatus` of the voice library). -/
inductive AudioPlayerStatus where
  | Idle
  | Buffering
  | Playing
  | Paused
  | AutoPaused
  deriving Repr, DecidableEq

/-- Embedding of the mutable state of one `SoundsmithConnection`
(src/soundsmith.ts:34-49) together with the observable effect logs:
`startedLog` records each `audioPlayer.play(resource)` call with the track the
resource was created from; `finishLog`/`errorLog` record the invocations of
the descriptors' `onFinish`/`onError`; `stopCalls` counts the
`audioPlayer.stop()` calls issued by skip operations (a forced skip of the
current track). -/
structure SessionState where
  queue : List SoundObject
  queueLock : Bool
  currentObject : Option SoundObject
  skippedSong : Bool
  flagRepeat : Bool
  flagLoop : Bool
  flagShuffle : Bool
  playerStatus : AudioPlayerStatus
  startedLog : List SoundObject
  finishLog : List SoundObject
  errorLog : List SoundObject
  stopCalls : Nat
  deriving Repr, DecidableEq

/-- State of a freshly constructed `SoundsmithConnection`
(src/soundsmith.ts:45-49 and the field initializers at 37-43): empty queue,
no lock, no current track, all playback flags false, player idle. -/
def initialState : SessionState :=
  { queue := []
    queueLock := false
    currentObject := none
    skippedSong := false
    flagRepeat := false
    flagLoop := false
    flagShuffle := false
    playerStatus := AudioPlayerStatus.Idle
    startedLog := []
    finishLog := []
    errorLog := []
    stopCalls := 0 }

/-- Result of running a routine that may let an exception escape to its
caller: `ok` is a normal return, `crashed` is an escaped exception; the
carried state is the session state left behind. -/
inductive Res where
  | ok (s : SessionState)
  | crashed (s : SessionState)
  deriving Repr, DecidableEq

/-- The session state carried by a result. -/
def Res.state : Res → SessionState
  | Res.ok s => s
  | Res.crashed s => s

/-- Embedding of `setFlagRepeat` (src/soundsmith.ts:214-218): store the flag,
return whether it changed. -/
def setFlagRepeat (flag : Bool) (s : SessionState) : Bool × SessionState :=
  let prev := s.flagRepeat
  (prev != flag, { s with flagRepeat := flag })

/-- Embedding of `setFlagLoop` (src/soundsmith.ts:219-223). -/
def setFlagLoop (flag : Bool) (s : SessionState) : Bool × SessionState :=
  let prev := s.flagLoop
  (prev != flag, { s with flagLoop := flag })

/-- One iteration of the Durstenfeld swap (src/soundsmith.ts:243):
`[queue[i], queue[j]] = [queue[j], queue[i]]`, reading both elements before
writing.  Out-of-range indices never occur on the paths the source reaches
(the fallback returns the list unchanged). -/
def swapList (l : List SoundObject) (i j : Nat) : List SoundObject :=
  match l[i]?, l[j]? with
  | some a, some b => (l.set i b).set j a
  | _, _ => l

/-- The loop of `shuffleQueue` (src/soundsmith.ts:241-244): counter `c` is the
loop variable `i`, running from `queue.length - 1` down to `1`; at each value
the element at `c` is swapped with the element at `rand c` - the embedding of
`Math.floor(Math.random() * (i+1))`, a value in `[0, i]`. -/
def shuffleGo (rand : (i : Nat) → Fin (i + 1)) : Nat → List SoundObject → List SoundObject
  | 0, q => q
  | Nat.succ c, q => shuffleGo rand c (swapList q (c + 1) (rand (c + 1)).val)

/-- Embedding of `shuffleQueue` (src/soundsmith.ts:240-246), the in-place
Durstenfeld/Fisher-Yates pass, parameterized by the random picks. -/
def shuffleQueue (rand : (i : Nat) → Fin (i + 1)) (queue : List SoundObject) :
    List SoundObject :=
  shuffleGo rand (queue.length - 1) queue

/-- Embedding of `setFlagShuffle` (src/soundsmith.ts:229-235): when turning
on, reshuffle the live queue; store the flag; return `flag || flag !== prev`. -/
def setFlagShuffle (rand : (i : Nat) → Fin (i + 1)) (flag : Bool)
    (s : SessionState) : Bool × SessionState :=
  let prev := s.flagShuffle
  let q := if flag then shuffleQueue rand s.queue else s.queue
  (flag || (flag != prev), { s with queue := q, flagShuffle := flag })

/-- Embedding of `enqueueShuffled` (src/soundsmith.ts:158-165): draw two
independent uniform positions in `[0, queue.length]`, keep the larger, and
splice the track in at that position.  `randIns n` supplies the two picks for
a queue of length `n`. -/
def enqueueShuffled (randIns : (n : Nat) → Fin (n + 1) × Fin (n + 1))
    (track : SoundObject) (q : List SoundObject) : List SoundObject :=
  let p := randIns q.length
  let higher := max p.1.val p.2.val
  List.insertIdx higher track q

/-- Embedding of `skipTrack` (src/soundsmith.ts:182-187): mark the song
skipped and force the player to stop (the stop drives the player to `Idle`;
the `Idle`-transition listener is modelled separately by the event driver). -/
def skipTrack (s : SessionState) : SessionState :=
  { s with skippedSong := true
           playerStatus := AudioPlayerStatus.Idle
           stopCalls := s.stopCalls + 1 }

/-- Embedding of `skipMultipleTracks` (src/soundsmith.ts:188-194): drop the
first `numTracks - 1` queued entries (`splice(0, numTracks - 1)`), then mark
skipped and stop the player. -/
def skipMultipleTracks (numTracks : Nat) (s : SessionState) : SessionState :=
  let s1 := if numTracks > 1 then { s with queue := s.queue.drop (numTracks - 1) } else s
  { s1 with skippedSong := true
            playerStatus := AudioPlayerStatus.Idle
            stopCalls := s1.stopCalls + 1 }

/-- Embedding of `skipRangeTracks` (src/soundsmith.ts:195-208).  `skipStart`
and `skipEnd` are the non-negative integers the command layer passes.  For
`skipStart = 0` the call defers to `skipMultipleTracks(skipEnd + 1)`.
Otherwise `skipStart` is decremented (`Math.max(0, skipStart - 1)` coincides
with truncated `Nat` subtraction) and, when `skipStart < skipEnd`, the logging
loop reads `queue[i].title` for every `i` in `[skipStart, skipEnd)` BEFORE the
splice: if any such index is out of the queue - exactly when
`skipEnd > queue.length` - the read of `.title` on `undefined` throws and the
routine exits by exception with the queue untouched (`Res.crashed`).
In-bounds, `splice(skipStart, skipEnd - skipStart)` removes the elements with
index in `[skipStart, skipEnd)`. -/
def skipRangeTracks (skipStart skipEnd : Nat) (s : SessionState) : Res :=
  if skipStart = 0 then
    Res.ok (skipMultipleTracks (skipEnd + 1) s)
  else
    let start := skipStart - 1
    if start < skipEnd then
      if skipEnd ≤ s.queue.length then
        Res.ok { s with queue := s.queue.take start ++ s.queue.drop skipEnd }
      else
        Res.crashed s
    else
      Res.ok s

/-- Embedding of `getQueueLength` (src/soundsmith.ts:256-260): sum
`lengthSeconds` over the pending queue and format with `calcTimeHMS`. -/
def getQueueLength (s : SessionState) : String :=
  let totalTimeSeconds := s.queue.foldl (fun acc entry => acc + entry.lengthSeconds) 0
  calcTimeHMS totalTimeSeconds

/-- The track-selection block of `processQueue` (src/soundsmith.ts:276-291),
run after the guards with `queueLock` already set.  Returns the chosen
`nextTrack` (`none` embeds the `undefined` produced by `queue.shift()` on an
empty queue) and the updated state.  When the replay condition fails, the
head is shifted off, and then - with the queue possibly already empty - the
`loop` re-insertion of `currentObject` runs: a plain tail push (the nested
`this.enqueue` call re-enters `processQueue`, which returns directly because
`queueLock` is true) or `enqueueShuffled` when `shuffle` is set.  Finally
`skippedSong` is cleared (line 291). -/
def chooseNext (randIns : (n : Nat) → Fin (n + 1) × Fin (n + 1))
    (s : SessionState) : Option SoundObject × SessionState :=
  if s.skippedSong = false ∧ s.currentObject.isSome ∧
      (s.flagRepeat = true ∨ (s.queue = [] ∧ s.flagLoop = true)) then
    (s.currentObject, { s with skippedSong := false })
  else
    let next := s.queue.head?
    let s2 := { s with queue := s.queue.tail }
    let s3 :=
      match s.currentObject with
      | some cur =>
        if s2.flagLoop then
          if s2.flagShuffle then { s2 with queue := enqueueShuffled randIns cur s2.queue }
          else { s2 with queue := s2.queue ++ [cur] }
        else s2
      | none => s2
    (next, { s3 with skippedSong := false })

/-- Embedding of `processQueue` (src/soundsmith.ts:265-308), parameterized by
the resource resolver outcome (`resolve t = true` iff
`t.createAudioResource()` succeeds) and the random picks for loop
re-insertion.  `fuel` bounds the recursion depth of the error path (the
source recursion is unbounded); out of fuel the current state is returned.
On the path where `chooseNext` yields `none` (an empty queue shifted while
`skippedSong` suppressed the replay branch), `nextTrack` is `undefined`:
`nextTrack.createAudioResource()` throws inside the `try`, the `catch` then
throws again on `nextTrack.onError`, so the routine exits by exception with
`queueLock` still true (`Res.crashed`).  On resolution success the volume is
applied, `currentObject` is set, playback starts and the lock is released; on
resolution failure the failing track's `onError` runs, the lock is released
and the routine retries itself. -/
def processQueue (resolve : SoundObject → Bool)
    (randIns : (n : Nat) → Fin (n + 1) × Fin (n + 1)) :
    Nat → SessionState → Res
  | 0, s => Res.ok s
  | Nat.succ fuel, s =>
    if s.queueLock = true ∨ s.playerStatus ≠ AudioPlayerStatus.Idle then
      Res.ok s
    else if s.queue = [] ∧ (s.currentObject = none ∨ (s.flagLoop = false ∧ s.flagRepeat = false)) then
      Res.ok s
    else
      match chooseNext randIns { s with queueLock := true } with
      | (none, s4) => Res.crashed s4
      | (some t, s4) =>
        if resolve t then
          Res.ok { s4 with currentObject := some t
                           playerStatus := AudioPlayerStatus.Playing
                           startedLog := s4.startedLog ++ [t]
                           queueLock := false }
        else
          processQueue resolve randIns fuel
            { s4 with errorLog := s4.errorLog ++ [t], queueLock := false }

/-- Embedding of `enqueue` (src/soundsmith.ts:122-125): push to the tail and
attempt an advance. -/
def enqueue (resolve : SoundObject → Bool)
    (randIns : (n : Nat) → Fin (n + 1) × Fin (n + 1)) (fuel : Nat)
    (track : SoundObject) (s : SessionState) : Res :=
  processQueue resolve randIns fuel { s with queue := s.queue ++ [track] }

/-- External events driving a session for the FIFO claim: an `enqueue` call,
or the audio player reporting that the playing resource ended (the non-idle
to `Idle` transition of src/soundsmith.ts:104-108, which fires the outgoing
descriptor's `onFinish` and then runs `processQueue`). -/
inductive Ev where
  | enq (t : SoundObject)
  | finishEv
  deriving Repr, DecidableEq

/-- Apply one event to a session.  A `finishEv` is only meaningful while the
player is `Playing` with a current resource; otherwise nothing happens.  An
exception escaping `processQueue` is an unhandled promise rejection at the
listener's call site: the surrounding program continues with whatever state
the routine left behind, which `Res.state` extracts. -/
def applyEv (resolve : SoundObject → Bool)
    (randIns : (n : Nat) → Fin (n + 1) × Fin (n + 1)) (fuel : Nat)
    (s : SessionState) : Ev → SessionState
  | Ev.enq t => (enqueue resolve randIns fuel t s).state
  | Ev.finishEv =>
    match s.playerStatus, s.currentObject with
    | AudioPlayerStatus.Playing, some c =>
      (processQueue resolve randIns fuel
        { s with playerStatus := AudioPlayerStatus.Idle
                 finishLog := s.finishLog ++ [c] }).state
    | _, _ => s

/-- Run a sequence of events from a state. -/
def runEvents (resolve : SoundObject → Bool)
    (randIns : (n : Nat) → Fin (n + 1) × Fin (n + 1)) (fuel : Nat)
    (s : SessionState) (evs : List Ev) : SessionState :=
  evs.foldl (applyEv resolve randIns fuel) s

/-- The tracks enqueued by a sequence of events, in order. -/
def enqueuedOf (evs : List Ev) : List SoundObject :=
  evs.foldr (fun e acc => match e with | Ev.enq t => t :: acc | Ev.finishEv => acc) []

/-- A fixed trivial random source for witnesses and counterexamples: always
pick position 0. -/
def randIns0 : (n : Nat) → Fin (n + 1) × Fin (n + 1) :=
  fun n => (⟨0, Nat.succ_pos n⟩, ⟨0, Nat.succ_pos n⟩)

/-- A fixed trivial single-pick random source: always pick index 0. -/
def rand0 : (i : Nat) → Fin (i + 1) :=
  fun i => ⟨0, Nat.succ_pos i⟩

/-- A resolver for which every track resolves. -/
def resolveAll : SoundObject → Bool := fun _ => true

/-- Two-digit zero padding, used to phrase the duration-format claims. -/
def pad2 (n : Nat) : String :=
  if n < 10 then "0" ++ toString n else toString n

/-- Modelled from the spec claim text for C9 (a refinement reference, not
source code): the sum "formatted as H:MM:SS with the hours digit omitted when
zero and minutes and seconds ALWAYS zero-padded to two digits". -/
def claimFormatHMS (lengthSeconds : Nat) : String :=
  let hours := lengthSeconds / 3600
  (if hours > 0 then toString hours ++ ":" else "") ++
    pad2 (lengthSeconds % 3600 / 60) ++ ":" ++ pad2 (lengthSeconds % 60)

/-- The format `calcTimeHMS` actually implements, phrased independently of the
source: H:MM:SS with the hours digit omitted when zero, seconds always
zero-padded, and minutes zero-padded exactly when the hours digit is shown. -/
def amendedFormatHMS (lengthSeconds : Nat) : String :=
  let hours := lengthSeconds / 3600
  let minutes := lengthSeconds % 3600 / 60
  (if hours > 0 then toString hours ++ ":" ++ pad2 minutes
   else toString minutes) ++ ":" ++ pad2 (lengthSeconds % 60)

/-- A concrete track used by witnesses and counterexamples. -/
def trackA : SoundObject :=
  { url := "a", title := "A", lengthSeconds := 30, user := "u", volumeAdjust := 1/2 }

/-- A second concrete track. -/
def trackB : SoundObject :=
  { url := "b", title := "B", lengthSeconds := 40, user := "u", volumeAdjust := 1/2 }

/-- A third concrete track. -/
def trackC : SoundObject :=
  { url := "c", title := "C", lengthSeconds := 65, user := "u", volumeAdjust := 1/2 }

/-- A track of exactly one hour, for the duration-format examples. -/
def trackHour : SoundObject :=
  { url := "h", title := "H", lengthSeconds := 3600, user := "u", volumeAdjust := 1/2 }

/-- Invoke the descriptor's `onStart` property, as the `Playing`-transition
listener does (src/soundsmith.ts:111). -/
def invokeDescOnStart (s : FromState) : FromState :=
  { s with startCell := invokeViaDescriptor s.startCell }

/-- Invoke the descriptor's `onFinish` property, as the `Idle`-transition
listener does (src/soundsmith.ts:107). -/
def invokeDescOnFinish (s : FromState) : FromState :=
  { s with finishCell := invokeViaDescriptor s.finishCell }

/-- Invoke the descriptor's `onError` property, as the `processQueue` error
path does (src/soundsmith.ts:304). -/
def invokeDescOnError (s : FromState) : FromState :=
  { s with errorCell := invokeViaDescriptor s.errorCell }

/-- A concrete video info record for witnesses. -/
def vid0 : YouTubeVideo :=
  { title := some "T", durationInSec := 65, url := "v" }

/-- A session whose queue holds one track, for the skip-range counterexample. -/
def oneTrackState : SessionState :=
  { initialState with queue := [trackA] }

/-- The session state reached by skipping (or stopping) while `repeat` is on
with an empty queue: `currentObject` loaded, `skippedSong` set by the skip,
queue empty, lock free, player already driven to `Idle` by the stop.  This is
the state in which `processQueue`'s selection shifts an empty queue. -/
def emptyQueueSkipState : SessionState :=
  { initialState with currentObject := some trackA, skippedSong := true, flagRepeat := true }

/-- A resolver that fails exactly on `trackA` (its source reference is
unreachable) and succeeds on every other track. -/
def resolveNotA : SoundObject → Bool :=
  fun t => t.url != "a"

/-- A session about to advance with `trackA` (which will fail to resolve)
at the head and `trackB` behind it. -/
def failThenPlayState : SessionState :=
  { initialState with queue := [trackA, trackB] }

/-- A session holding three queued tracks, for the shuffle witness. -/
def threeTrackState : SessionState :=
  { initialState with queue := [trackA, trackB, trackC] }

/-- A session with `trackA` current, `repeat` on, one queued track and the
skip flag clear: the replay branch of the selection applies. -/
def replayState : SessionState :=
  { initialState with currentObject := some trackA, flagRepeat := true, queue := [trackB] }

/-- A session with `repeat` on whose current track `trackA` fails to resolve
while a perfectly resolvable `trackB` waits in the queue: the advance replays
and re-fails `trackA` on every round. -/
def repeatFailState : SessionState :=
  { initialState with currentObject := some trackA, flagRepeat := true, queue := [trackB] }

/-- The per-event contribution to the enqueued-track accounting. -/
def evEnqueued : Ev → List SoundObject
  | Ev.enq t => [t]
  | Ev.finishEv => []

/-- The intended one-shot mechanism does work on the `wrappedMethods` object
itself: a second invocation through `wrappedMethods.onX` is a no-op.  No call
site in the repository takes this path. -/
theorem invokeViaWrapped_oneShot (c : CallbackCell) :
    invokeViaWrapped (invokeViaWrapped c) = invokeViaWrapped c := by
  cases c with
  | mk w d u => cases w <;> rfl

/-- Claim C1 (code_bug): the spec requires each lifecycle callback of a
descriptor built by `SoundObject.from` to be one-shot, and the code's own
comment (src/soundsmith.ts:372) says the wrapping ensures the methods run only
once; but the wrapper reassigns `wrappedMethods.onX` while every call site
invokes the copy stored on the descriptor (spread at line 394), which is never
reassigned - so invoking a callback on the descriptor twice runs the
caller-supplied function twice, not once. -/
theorem c1_one_shot_violated :
    ((invokeDescOnStart (invokeDescOnStart freshFromState)).startCell.userCalls = 2) ∧
    ((invokeDescOnFinish (invokeDescOnFinish freshFromState)).finishCell.userCalls = 2) ∧
    ((invokeDescOnError (invokeDescOnError freshFromState)).errorCell.userCalls = 2) := by
  refine ⟨rfl, rfl, rfl⟩

/-- Claim C7 (confirmed): `setRepeat`/`setLoop` report true exactly when the
stored flag changed; `setShuffle(true)` always reports true; and
`setShuffle(false)` reports true exactly when shuffle was previously on. -/
theorem c7_flag_change_reporting (s : SessionState) (b : Bool)
    (rand : (i : Nat) → Fin (i + 1)) :
    ((setFlagRepeat b s).1 = true ↔ s.flagRepeat ≠ b) ∧
    ((setFlagLoop b s).1 = true ↔ s.flagLoop ≠ b) ∧
    ((setFlagShuffle rand true s).1 = true) ∧
    ((setFlagShuffle rand false s).1 = true ↔ s.flagShuffle = true) := by
  refine ⟨?_, ?_, ?_, ?_⟩ <;>
    simp [setFlagRepeat, setFlagLoop, setFlagShuffle, bne_iff_ne, ne_comm]

/-- Claim C10 (confirmed): the stored `volumeAdjust` is `min 1 v` for a
supplied nonzero `v`, and the default `0.5` when the argument is omitted or
equals `0` (a JS-falsy requested gain of exactly `0` is silently replaced);
the clamp applies only from above, so a negative supplied value is stored
unchanged. -/
theorem c10_volume_clamp (info : YouTubeVideo) (user : String) (v : ℚ) :
    (v ≠ 0 → (SoundObject.fromInfo info user (some v)).volumeAdjust = min 1 v) ∧
    ((SoundObject.fromInfo info user none).volumeAdjust = DEFAULT_VOLUME_LOG) ∧
    ((SoundObject.fromInfo info user (some 0)).volumeAdjust = DEFAULT_VOLUME_LOG) ∧
    (v < 0 → (SoundObject.fromInfo info user (some v)).volumeAdjust = v) := by
  refine ⟨?_, ?_, ?_, ?_⟩
  · intro hv
    simp [SoundObject.fromInfo, hv]
  · simp [SoundObject.fromInfo, DEFAULT_VOLUME_LOG]
    norm_num
  · simp [SoundObject.fromInfo, DEFAULT_VOLUME_LOG]
    norm_num
  · intro hv
    have hne : v ≠ 0 := ne_of_lt hv
    have hmin : min 1 v = v := min_eq_right (by linarith)
    simp [SoundObject.fromInfo, hne, hmin]

/-- Witness for C10 at a concrete negative volume: the hypothesis `-1 < 0` is
discharged and the stored gain is the unclamped `-1`. -/
theorem c10_witness :
    (SoundObject.fromInfo vid0 "u" (some (-1))).volumeAdjust = -1 := by
  exact (c10_volume_clamp vid0 "u" (-1)).2.2.2 (by norm_num)

/-- The formatter `calcTimeHMS` implements exactly the H:MM:SS scheme in which
minutes are zero-padded only when the hours digit is shown. -/
theorem calcTimeHMS_eq_amended (n : Nat) : calcTimeHMS n = amendedFormatHMS n := by
  have h1 : n - n / 3600 * 3600 = n % 3600 := by omega
  have h2 : n % 3600 - n % 3600 / 60 * 60 = n % 60 := by omega
  simp only [calcTimeHMS, amendedFormatHMS, pad2, h1, h2]
  by_cases hh : n / 3600 > 0 <;> by_cases hm : n % 3600 / 60 < 10 <;>
    simp [hh, hm]

/-- Counterexample for C9: for a total of 65 seconds the code returns
`"1:05"`, while the claimed format - minutes always zero-padded to two
digits - demands `"01:05"`; the claim is false at the one-track queue of
duration 65. -/
theorem c9_counterexample :
    getQueueLength { initialState with queue := [trackC] } = "1:05" ∧
    claimFormatHMS 65 = "01:05" ∧
    getQueueLength { initialState with queue := [trackC] } ≠ claimFormatHMS 65 := by
  refine ⟨rfl, rfl, by decide⟩

/-- Claim C9 (corrected): `totalQueuedDuration` returns the sum of the queued
durations formatted as H:MM:SS with the hours digit omitted when zero, the
seconds always zero-padded to two digits and the minutes zero-padded exactly
when the hours digit is shown; in particular it returns `"0:00"` for an empty
queue and `"1:01:05"` for a queue of durations `[65, 3600]`. -/
theorem c9_amended (s : SessionState) :
    getQueueLength s = amendedFormatHMS ((s.queue.map SoundObject.lengthSeconds).sum) ∧
    getQueueLength initialState = "0:00" ∧
    getQueueLength { initialState with queue := [trackC, trackHour] } = "1:01:05" := by
  refine ⟨?_, rfl, rfl⟩
  have hsum : ∀ (l : List SoundObject) (acc : Nat),
      l.foldl (fun a e => a + e.lengthSeconds) acc = acc + (l.map SoundObject.lengthSeconds).sum := by
    intro l
    induction l with
    | nil => intro acc; simp
    | cons x xs ih =>
      intro acc
      simp [ih, Nat.add_assoc]
  simp [getQueueLength, hsum, calcTimeHMS_eq_amended]

/-- Counterexample for C3: on a one-track queue, `skipRange(2, 3)` has
`lo = 2 > queue.length = 1`, yet it is not a no-op returning normally: the
logging pass reads `queue[1]` - an out-of-queue index - and the call exits by
exception (the queue itself is left unchanged). -/
theorem c3_counterexample :
    oneTrackState.queue.length < 2 ∧
    skipRangeTracks 2 3 oneTrackState = Res.crashed oneTrackState ∧
    skipRangeTracks 2 3 oneTrackState ≠ Res.ok oneTrackState := by
  refine ⟨by decide, rfl, by decide⟩

/-- Claim C3 (corrected): a call `skipRange(lo, hi)` with `lo > queue.length`
never modifies the session - the queue is unchanged and no forced skip of the
current track occurs - but it is a genuine no-op only when `hi < lo`; when
`hi ≥ lo` the logging loop reads the out-of-queue index `lo - 1 ≥
queue.length` and the call exits by exception instead of returning. -/
theorem c3_amended (s : SessionState) (lo hi : Nat) (h : s.queue.length < lo) :
    skipRangeTracks lo hi s = if lo ≤ hi then Res.crashed s else Res.ok s := by
  have hlo : lo ≠ 0 := by omega
  unfold skipRangeTracks
  rw [if_neg hlo]
  by_cases hcmp : lo - 1 < hi
  · have hout : ¬ (hi ≤ s.queue.length) := by omega
    rw [if_pos hcmp, if_neg hout, if_pos (by omega : lo ≤ hi)]
  · rw [if_neg hcmp, if_neg (by omega : ¬ lo ≤ hi)]

/-- Witness for C3 on a concrete in-no-op instance: `skipRange(1, 0)` on an
empty queue satisfies `lo > queue.length` and returns the state unchanged. -/
theorem c3_witness :
    initialState.queue.length < 1 ∧
    skipRangeTracks 1 0 initialState = Res.ok initialState := by
  refine ⟨by decide, ?_⟩
  have h := c3_amended initialState 1 0 (by decide)
  simpa using h

/-- Consing the element read at position `j` onto the list with position `j`
overwritten by `x` is a permutation of consing `x` onto the original list:
the single-position overwrite trades exactly one occurrence. -/
theorem cons_get_set_perm {α : Type _} :
    ∀ (xs : List α) (j : Nat) (x : α) (h : j < xs.length),
      List.Perm (xs.get ⟨j, h⟩ :: xs.set j x) (x :: xs) := by
  intro xs
  induction xs with
  | nil => intro j x h; simp at h
  | cons y ys ih =>
    intro j x h
    cases j with
    | zero =>
      simpa using List.Perm.swap x y ys
    | succ j' =>
      have hj' : j' < ys.length := by simpa using h
      have s1 : List.Perm (ys.get ⟨j', hj'⟩ :: y :: ys.set j' x)
          (y :: ys.get ⟨j', hj'⟩ :: ys.set j' x) :=
        List.Perm.swap y (ys.get ⟨j', hj'⟩) _
      have s2 : List.Perm (y :: ys.get ⟨j', hj'⟩ :: ys.set j' x) (y :: x :: ys) :=
        (ih j' x hj').cons y
      have s3 : List.Perm (y :: x :: ys) (x :: y :: ys) := List.Perm.swap x y ys
      simpa using s1.trans (s2.trans s3)

/-- The two-position overwrite performed by one Durstenfeld swap is a
permutation of the original list. -/
theorem set_set_swap_perm {α : Type _} :
    ∀ (l : List α) (i j : Nat) (hi : i < l.length) (hj : j < l.length),
      List.Perm ((l.set i (l.get ⟨j, hj⟩)).set j (l.get ⟨i, hi⟩)) l := by
  intro l
  induction l with
  | nil => intro i j hi hj; simp at hi
  | cons y ys ih =>
    intro i j hi hj
    cases i with
    | zero =>
      cases j with
      | zero => simp
      | succ j' =>
        have hj' : j' < ys.length := by simpa using hj
        simpa using cons_get_set_perm ys j' y hj'
    | succ i' =>
      have hi' : i' < ys.length := by simpa using hi
      cases j with
      | zero =>
        simpa using cons_get_set_perm ys i' y hi'
      | succ j' =>
        have hj' : j' < ys.length := by simpa using hj
        simpa using (ih i' j' hi' hj').cons y

/-- A `swapList` step permutes the list (out-of-range indices leave it
unchanged). -/
theorem swapList_perm (l : List SoundObject) (i j : Nat) :
    List.Perm (swapList l i j) l := by
  unfold swapList
  split
  case _ a b h₁ h₂ =>
    have hi : i < l.length := by
      by_contra hc
      rw [List.getElem?_eq_none (by omega)] at h₁
      exact Option.noConfusion h₁
    have hj : j < l.length := by
      by_contra hc
      rw [List.getElem?_eq_none (by omega)] at h₂
      exact Option.noConfusion h₂
    have ha : a = l.get ⟨i, hi⟩ := by
      have := List.getElem?_eq_getElem hi
      rw [this] at h₁
      simpa using h₁.symm
    have hb : b = l.get ⟨j, hj⟩ := by
      have := List.getElem?_eq_getElem hj
      rw [this] at h₂
      simpa using h₂.symm
    rw [ha, hb]
    exact set_set_swap_perm l i j hi hj
  case _ => exact List.Perm.refl l

/-- The whole Durstenfeld pass permutes the list, whatever picks the random
source supplies. -/
theorem shuffleGo_perm (rand : (i : Nat) → Fin (i + 1)) :
    ∀ (c : Nat) (q : List SoundObject), List.Perm (shuffleGo rand c q) q := by
  intro c
  induction c with
  | zero => intro q; exact List.Perm.refl q
  | succ c ih =>
    intro q
    exact List.Perm.trans (ih _) (swapList_perm q (c + 1) (rand (c + 1)).val)

/-- Claim C8 (confirmed): enabling shuffle on a non-empty queue permutes it -
the resulting queue holds the same multiset of descriptors as before, for
every choice of random swap indices. -/
theorem c8_shuffle_permutes (rand : (i : Nat) → Fin (i + 1)) (s : SessionState)
    (_hq : s.queue ≠ []) :
    (((setFlagShuffle rand true s).2.queue : List SoundObject) : Multiset SoundObject) =
      ((s.queue : List SoundObject) : Multiset SoundObject) := by
  have hperm : List.Perm (shuffleQueue rand s.queue) s.queue :=
    shuffleGo_perm rand _ _
  simp only [setFlagShuffle]
  exact Multiset.coe_eq_coe.mpr hperm

/-- Witness for C8 on a concrete three-track queue with the always-zero random
source. -/
theorem c8_witness :
    threeTrackState.queue ≠ [] ∧
    (((setFlagShuffle rand0 true threeTrackState).2.queue : List SoundObject) : Multiset SoundObject) =
      ((threeTrackState.queue : List SoundObject) : Multiset SoundObject) := by
  exact ⟨by decide, c8_shuffle_permutes rand0 threeTrackState (by decide)⟩

/-- Claim C6 (code_bug): the spec requires the `busy` guard to be released on
every exit path of the advance routine; but from the reachable state in which
`repeat` is on, a track is loaded, the queue is empty and the user has just
skipped (src/soundsmith.ts: `skipTrack` sets `skippedSong` and stops the
player, whose `Idle` transition re-runs `processQueue`), the selection shifts
the empty queue - the code comment at line 282 claims the head is
"guaranteed to exist", which is false here - and the routine exits by
exception with `queueLock` still `true`, wedging the session. -/
theorem c6_lock_not_released :
    emptyQueueSkipState.queueLock = false ∧
    processQueue resolveAll randIns0 5 emptyQueueSkipState =
      Res.crashed { emptyQueueSkipState with queueLock := true, skippedSong := false } ∧
    ({ emptyQueueSkipState with queueLock := true, skippedSong := false } : SessionState).queueLock = true := by
  refine ⟨rfl, rfl, rfl⟩

/-- Counterexample for C4: the advance algorithm can run past its guard (lock
free, player idle, something playable: `current` with `repeat` on) while the
replay condition fails because `justSkipped` is set and the queue is empty -
and then NO front of the queue is popped: the selection yields no track at
all (`queue.shift()` on an empty queue). -/
theorem c4_counterexample :
    (emptyQueueSkipState.queueLock = false ∧
     emptyQueueSkipState.playerStatus = AudioPlayerStatus.Idle) ∧
    ¬ (emptyQueueSkipState.queue = [] ∧
        (emptyQueueSkipState.currentObject = none ∨
         (emptyQueueSkipState.flagLoop = false ∧ emptyQueueSkipState.flagRepeat = false))) ∧
    ¬ (emptyQueueSkipState.skippedSong = false ∧
        emptyQueueSkipState.currentObject.isSome = true ∧
        (emptyQueueSkipState.flagRepeat = true ∨
         (emptyQueueSkipState.queue = [] ∧ emptyQueueSkipState.flagLoop = true))) ∧
    (chooseNext randIns0 { emptyQueueSkipState with queueLock := true }).1 = none := by
  refine ⟨⟨rfl, rfl⟩, by decide, by decide, rfl⟩

/-- Claim C4 (corrected): past the guard, the chosen next track is `current`
exactly when `justSkipped` is false, `current` exists and (`repeat` is true or
the queue is empty with `loop` true); otherwise, WHEN THE QUEUE IS NONEMPTY,
its front is popped and - if `loop` is true and `current` existed - `current`
is re-inserted at the tail (shuffle off) or at the randomized biased position
(shuffle on); `justSkipped` is cleared in all cases.  When the queue is empty
in the otherwise-branch (reachable only with `justSkipped` set and `current`
present under `repeat`/`loop`), nothing is popped: the selection yields no
track and the advance faults downstream. -/
theorem c4_choose_next (randIns : (n : Nat) → Fin (n + 1) × Fin (n + 1))
    (s : SessionState) :
    (∀ c : SoundObject, s.skippedSong = false → s.currentObject = some c →
        (s.flagRepeat = true ∨ (s.queue = [] ∧ s.flagLoop = true)) →
        chooseNext randIns s = (some c, { s with skippedSong := false })) ∧
    (¬ (s.skippedSong = false ∧ s.currentObject.isSome = true ∧
          (s.flagRepeat = true ∨ (s.queue = [] ∧ s.flagLoop = true))) →
      (∀ (t : SoundObject) (rest : List SoundObject), s.queue = t :: rest →
        chooseNext randIns s =
          (some t,
            { s with
                queue :=
                  match s.currentObject with
                  | some cur =>
                    if s.flagLoop then
                      if s.flagShuffle then enqueueShuffled randIns cur rest
                      else rest ++ [cur]
                    else rest
                  | none => rest
                skippedSong := false })) ∧
      (s.queue = [] → (chooseNext randIns s).1 = none)) := by
  constructor
  · intro c hsk hcur hor
    unfold chooseNext
    rw [if_pos ⟨hsk, by simp [hcur], hor⟩]
    rw [hcur]
  · intro hcond
    constructor
    · intro t rest hq
      unfold chooseNext
      rw [if_neg hcond]
      rcases hcc : s.currentObject with _ | cur
      · simp [hq, hcc]
      · simp only [hq, hcc, List.head?_cons, List.tail_cons]
        by_cases hl : s.flagLoop <;> by_cases hsh : s.flagShuffle <;>
          simp [hl, hsh]
    · intro hq
      unfold chooseNext
      rw [if_neg hcond]
      simp [hq]

/-- Witness for C4: with `repeat` on, a current track, no pending skip and a
nonempty queue, the selection replays the current track and clears the skip
flag. -/
theorem c4_witness :
    chooseNext randIns0 replayState = (some trackA, { replayState with skippedSong := false }) := by
  exact (c4_choose_next randIns0 replayState).1 trackA rfl rfl (Or.inl rfl)

/-- One unfolding of `processQueue` when both `repeat` and `loop` are off and
the queue is nonempty: the head is popped; on resolution success playback of
the head starts with the lock released, on failure the head's `onError` is
recorded, the lock is released and the routine retries on the remaining
queue. -/
theorem processQueue_step_flagsFalse (resolve : SoundObject → Bool)
    (randIns : (n : Nat) → Fin (n + 1) × Fin (n + 1)) (fuel : Nat)
    (s : SessionState) (hL : s.queueLock = false)
    (hI : s.playerStatus = AudioPlayerStatus.Idle)
    (hR : s.flagRepeat = false) (hLo : s.flagLoop = false)
    (t : SoundObject) (rest : List SoundObject) (hq : s.queue = t :: rest) :
    processQueue resolve randIns (fuel + 1) s =
      if resolve t then
        Res.ok { s with queue := rest, skippedSong := false, currentObject := some t,
                        playerStatus := AudioPlayerStatus.Playing,
                        startedLog := s.startedLog ++ [t], queueLock := false }
      else
        processQueue resolve randIns fuel
          { s with queue := rest, skippedSong := false,
                   errorLog := s.errorLog ++ [t], queueLock := false } := by
  have hg1 : ¬ (s.queueLock = true ∨ s.playerStatus ≠ AudioPlayerStatus.Idle) := by
    simp [hL, hI]
  have hg2 : ¬ (s.queue = [] ∧ (s.currentObject = none ∨
      (s.flagLoop = false ∧ s.flagRepeat = false))) := by
    simp [hq]
  have hchoose : chooseNext randIns { s with queueLock := true } =
      (some t, { s with queueLock := true, queue := rest, skippedSong := false }) := by
    unfold chooseNext
    rw [if_neg (by simp [hR, hq])]
    rcases hcc : s.currentObject with _ | cur <;>
      simp [hq, hcc, hLo]
  simp only [processQueue]
  rw [if_neg hg1, if_neg hg2, hchoose]

/-- The engine behind the error-recovery claim: with `repeat` and `loop` off,
a free lock and an idle player, one advance with enough fuel returns
normally; it records `onError` for exactly the maximal failing prefix of the
queue, starts the first resolvable track (if any), leaves the rest of the
queue pending, and releases the lock. -/
theorem processQueue_scan (resolve : SoundObject → Bool)
    (randIns : (n : Nat) → Fin (n + 1) × Fin (n + 1)) :
    ∀ (q : List SoundObject) (fuel : Nat) (s : SessionState),
      s.queue = q → q.length + 1 ≤ fuel →
      s.queueLock = false → s.playerStatus = AudioPlayerStatus.Idle →
      s.flagRepeat = false → s.flagLoop = false →
      ∃ s', processQueue resolve randIns fuel s = Res.ok s' ∧
        s'.errorLog = s.errorLog ++ q.takeWhile (fun t => !resolve t) ∧
        s'.startedLog = s.startedLog ++ (q.dropWhile (fun t => !resolve t)).take 1 ∧
        s'.queue = (q.dropWhile (fun t => !resolve t)).drop 1 ∧
        s'.queueLock = false ∧
        (∀ u rest2, q.dropWhile (fun t => !resolve t) = u :: rest2 →
          s'.currentObject = some u) := by
  intro q
  induction q with
  | nil =>
    intro fuel s hq hfuel hL hI hR hLo
    rcases fuel with _ | f
    · omega
    · refine ⟨s, ?_, by simp, by simp, by simp [hq], hL, by simp⟩
      simp only [processQueue]
      rw [if_neg (by simp [hL, hI]), if_pos (by simp [hq, hLo, hR])]
  | cons t rest ih =>
    intro fuel s hq hfuel hL hI hR hLo
    rcases fuel with _ | f
    · simp at hfuel
    · rw [processQueue_step_flagsFalse resolve randIns f s hL hI hR hLo t rest hq]
      by_cases hres : resolve t
      · refine ⟨_, by rw [if_pos hres], ?_, ?_, ?_, rfl, ?_⟩
        · simp [List.takeWhile_cons, hres]
        · simp [List.dropWhile_cons, hres]
        · simp [List.dropWhile_cons, hres]
        · intro u rest2 hdrop
          simp only [List.dropWhile_cons, hres] at hdrop
          simp at hdrop
          simp [hdrop.1]
      · rw [if_neg hres]
        obtain ⟨s', hps, he, hs, hq', hl, hc⟩ :=
          ih f { s with queue := rest, skippedSong := false,
                        errorLog := s.errorLog ++ [t], queueLock := false }
            rfl (by simp at hfuel; omega) rfl hI hR hLo
        refine ⟨s', hps, ?_, ?_, ?_, hl, ?_⟩
        · simp only [List.takeWhile_cons, hres] at *
          simpa [List.append_assoc] using he
        · simpa [List.dropWhile_cons, hres] using hs
        · simpa [List.dropWhile_cons, hres] using hq'
        · intro u rest2 hdrop
          apply hc
          simpa [List.dropWhile_cons, hres] using hdrop

/-- When `repeat` keeps re-selecting a current track that fails to resolve,
the advance loops: every round invokes the same track's `onError`, releases
the lock and retries, and no other field of the session ever changes - for
EVERY recursion budget the queue is untouched and nothing is started, so the
next queue entry is never attempted.  This is the unbounded-recursion fact
behind the C5 counterexample. -/
theorem processQueue_repeat_fail_loops (resolve : SoundObject → Bool)
    (randIns : (n : Nat) → Fin (n + 1) × Fin (n + 1)) :
    ∀ (fuel : Nat) (s : SessionState) (c : SoundObject),
      s.queueLock = false → s.playerStatus = AudioPlayerStatus.Idle →
      s.skippedSong = false → s.currentObject = some c →
      s.flagRepeat = true → resolve c = false →
      processQueue resolve randIns fuel s =
        Res.ok { s with errorLog := s.errorLog ++ List.replicate fuel c } := by
  intro fuel
  induction fuel with
  | zero =>
    intro s c hL hI hSk hcur hRep hres
    simp [processQueue]
  | succ f ih =>
    intro s c hL hI hSk hcur hRep hres
    have hchoose : chooseNext randIns { s with queueLock := true } =
        (some c, { s with queueLock := true, skippedSong := false }) := by
      unfold chooseNext
      rw [if_pos ⟨hSk, by simp [hcur], Or.inl hRep⟩]
      rw [hcur]
    simp only [processQueue]
    rw [if_neg (by simp [hL, hI]), if_neg (by simp [hcur, hRep]), hchoose]
    dsimp only
    rw [if_neg (by simp [hres])]
    have := ih { s with skippedSong := false, errorLog := s.errorLog ++ [c],
                        queueLock := false } c rfl hI rfl hcur hRep hres
    rw [this, hSk, hL]
    simp [List.replicate_succ]

/-- Counterexample for C5: with `repeat` on, the current track failing to
resolve and a resolvable track waiting in the queue, a full advance run
invokes the failing track's `onError` on every retry round, starts nothing
and leaves the queue untouched - the next queue entry is never attempted,
refuting the unqualified claim (and `processQueue_repeat_fail_loops` shows no
larger recursion budget changes this). -/
theorem c5_counterexample :
    repeatFailState.queue = [trackB] ∧
    resolveNotA trackA = false ∧ resolveNotA trackB = true ∧
    processQueue resolveNotA randIns0 5 repeatFailState =
      Res.ok { repeatFailState with
                 errorLog := [trackA, trackA, trackA, trackA, trackA] } ∧
    (processQueue resolveNotA randIns0 5 repeatFailState).state.startedLog = [] ∧
    (processQueue resolveNotA randIns0 5 repeatFailState).state.queue = [trackB] := by
  exact ⟨rfl, rfl, rfl, rfl, rfl, rfl⟩

/-- Claim C5 (corrected): when resource resolution fails during the advance,
the failing track's `onError` is invoked, the lock (`busy`) is released and
the advance retries, with the error never propagating to the caller; the
retry reaches the next queue entry only when the failing track was popped
from the queue - in particular whenever `repeat` and `loop` are off, as
stated here: every failing track in the queue gets its `onError` record, the
first resolvable one is started, and the run returns normally (`Res.ok`).
When the failing track is instead the replayed current (`repeat` on, or
`loop` with an empty queue), the retry re-selects the same track forever and
the next queue entry is never attempted (see the C5 counterexample). -/
theorem c5_resolution_failure (resolve : SoundObject → Bool)
    (randIns : (n : Nat) → Fin (n + 1) × Fin (n + 1)) (fuel : Nat)
    (s : SessionState) (hL : s.queueLock = false)
    (hI : s.playerStatus = AudioPlayerStatus.Idle)
    (hR : s.flagRepeat = false) (hLo : s.flagLoop = false)
    (hfuel : s.queue.length + 1 ≤ fuel) :
    ∃ s', processQueue resolve randIns fuel s = Res.ok s' ∧
      s'.errorLog = s.errorLog ++ s.queue.takeWhile (fun t => !resolve t) ∧
      s'.startedLog = s.startedLog ++ (s.queue.dropWhile (fun t => !resolve t)).take 1 ∧
      s'.queue = (s.queue.dropWhile (fun t => !resolve t)).drop 1 ∧
      s'.queueLock = false ∧
      (∀ u rest2, s.queue.dropWhile (fun t => !resolve t) = u :: rest2 →
        s'.currentObject = some u) :=
  processQueue_scan resolve randIns s.queue fuel s rfl hfuel hL hI hR hLo

/-- Witness for C5: the head track fails to resolve, the one behind it
succeeds; the advance records the head's `onError`, starts the second track,
empties the queue and releases the lock, returning normally. -/
theorem c5_witness :
    ∃ s', processQueue resolveNotA randIns0 3 failThenPlayState = Res.ok s' ∧
      s'.errorLog = [trackA] ∧ s'.startedLog = [trackB] ∧ s'.queue = [] ∧
      s'.queueLock = false ∧ s'.currentObject = some trackB := by
  obtain ⟨s', h1, h2, h3, h4, h5, h6⟩ :=
    c5_resolution_failure resolveNotA randIns0 3 failThenPlayState rfl rfl rfl rfl
      (by decide)
  refine ⟨s', h1, ?_, ?_, ?_, h5, ?_⟩
  · rw [h2]; rfl
  · rw [h3]; rfl
  · rw [h4]; rfl
  · exact h6 trackB [] rfl

/-- One advance with the always-successful resolver preserves the FIFO
bookkeeping: the started log followed by the pending queue is unchanged, and
the lock, both flags and the skip marker stay clear. -/
theorem processQueue_fifo_inv
    (randIns : (n : Nat) → Fin (n + 1) × Fin (n + 1)) (fuel : Nat)
    (s : SessionState) (hL : s.queueLock = false) (hR : s.flagRepeat = false)
    (hLo : s.flagLoop = false) (hSk : s.skippedSong = false) :
    ∃ s', processQueue resolveAll randIns fuel s = Res.ok s' ∧
      s'.startedLog ++ s'.queue = s.startedLog ++ s.queue ∧
      s'.queueLock = false ∧ s'.flagRepeat = false ∧ s'.flagLoop = false ∧
      s'.skippedSong = false := by
  rcases fuel with _ | f
  · exact ⟨s, rfl, rfl, hL, hR, hLo, hSk⟩
  · by_cases hI : s.playerStatus = AudioPlayerStatus.Idle
    · rcases hq : s.queue with _ | ⟨t, rest⟩
      · refine ⟨s, ?_, by rw [hq], hL, hR, hLo, hSk⟩
        simp only [processQueue]
        rw [if_neg (by simp [hL, hI]), if_pos (by simp [hq, hLo, hR])]
      · rw [processQueue_step_flagsFalse resolveAll randIns f s hL hI hR hLo t rest hq]
        have hres : resolveAll t = true := rfl
        rw [if_pos hres]
        refine ⟨_, rfl, ?_, rfl, hR, hLo, rfl⟩
        simp
    · refine ⟨s, ?_, rfl, hL, hR, hLo, hSk⟩
      simp only [processQueue]
      rw [if_pos (Or.inr hI)]

/-- Applying one event preserves the FIFO bookkeeping and adds exactly the
enqueued track (if the event is an enqueue) to the combined
started-plus-pending sequence. -/
theorem applyEv_fifo_inv
    (randIns : (n : Nat) → Fin (n + 1) × Fin (n + 1)) (fuel : Nat)
    (s : SessionState) (e : Ev) (hL : s.queueLock = false)
    (hR : s.flagRepeat = false) (hLo : s.flagLoop = false)
    (hSk : s.skippedSong = false) :
    (applyEv resolveAll randIns fuel s e).startedLog ++
        (applyEv resolveAll randIns fuel s e).queue =
      s.startedLog ++ s.queue ++ evEnqueued e ∧
    (applyEv resolveAll randIns fuel s e).queueLock = false ∧
    (applyEv resolveAll randIns fuel s e).flagRepeat = false ∧
    (applyEv resolveAll randIns fuel s e).flagLoop = false ∧
    (applyEv resolveAll randIns fuel s e).skippedSong = false := by
  cases e with
  | enq t =>
    obtain ⟨s', hps, hacc, h1, h2, h3, h4⟩ :=
      processQueue_fifo_inv randIns fuel
        { s with queue := s.queue ++ [t] } hL hR hLo hSk
    have hstate : applyEv resolveAll randIns fuel s (Ev.enq t) = s' := by
      simp [applyEv, enqueue, hps, Res.state]
    rw [hstate]
    refine ⟨?_, h1, h2, h3, h4⟩
    rw [hacc]
    simp [evEnqueued, List.append_assoc]
  | finishEv =>
    by_cases hst : s.playerStatus = AudioPlayerStatus.Playing
    · rcases hcur : s.currentObject with _ | c
      · have happ : applyEv resolveAll randIns fuel s Ev.finishEv = s := by
          simp [applyEv, hst, hcur]
        rw [happ]
        exact ⟨by simp [evEnqueued], hL, hR, hLo, hSk⟩
      · obtain ⟨s', hps, hacc, h1, h2, h3, h4⟩ :=
          processQueue_fifo_inv randIns fuel
            { s with playerStatus := AudioPlayerStatus.Idle,
                     finishLog := s.finishLog ++ [c] } hL hR hLo hSk
        rw [hcur] at hps hacc
        have happ : applyEv resolveAll randIns fuel s Ev.finishEv = s' := by
          simp only [applyEv, hst, hcur]
          rw [hps]
          rfl
        rw [happ]
        refine ⟨?_, h1, h2, h3, h4⟩
        simpa [evEnqueued] using hacc
    · have happ : applyEv resolveAll randIns fuel s Ev.finishEv = s := by
        rcases hstv : s.playerStatus with _ | _ | _ | _ | _ <;>
          rcases hcv : s.currentObject with _ | c <;>
          first
            | exact absurd hstv hst
            | simp [applyEv, hstv, hcv]
      rw [happ]
      exact ⟨by simp [evEnqueued], hL, hR, hLo, hSk⟩

/-- Running any event sequence preserves the FIFO bookkeeping: the started
log followed by the pending queue equals the original one followed by all
tracks enqueued by the events, in order. -/
theorem runEvents_fifo_inv
    (randIns : (n : Nat) → Fin (n + 1) × Fin (n + 1)) (fuel : Nat) :
    ∀ (evs : List Ev) (s : SessionState), s.queueLock = false →
      s.flagRepeat = false → s.flagLoop = false → s.skippedSong = false →
      (runEvents resolveAll randIns fuel s evs).startedLog ++
          (runEvents resolveAll randIns fuel s evs).queue =
        s.startedLog ++ s.queue ++ enqueuedOf evs ∧
      (runEvents resolveAll randIns fuel s evs).queueLock = false ∧
      (runEvents resolveAll randIns fuel s evs).flagRepeat = false ∧
      (runEvents resolveAll randIns fuel s evs).flagLoop = false ∧
      (runEvents resolveAll randIns fuel s evs).skippedSong = false := by
  intro evs
  induction evs with
  | nil =>
    intro s hL hR hLo hSk
    exact ⟨by simp [runEvents, enqueuedOf], hL, hR, hLo, hSk⟩
  | cons e rest ih =>
    intro s hL hR hLo hSk
    obtain ⟨hacc, h1, h2, h3, h4⟩ := applyEv_fifo_inv randIns fuel s e hL hR hLo hSk
    obtain ⟨hacc', h1', h2', h3', h4'⟩ :=
      ih (applyEv resolveAll randIns fuel s e) h1 h2 h3 h4
    have hrun : runEvents resolveAll randIns fuel s (e :: rest) =
        runEvents resolveAll randIns fuel (applyEv resolveAll randIns fuel s e) rest := rfl
    rw [hrun]
    refine ⟨?_, h1', h2', h3', h4'⟩
    rw [hacc', hacc]
    cases e <;> simp [evEnqueued, enqueuedOf, List.append_assoc]

/-- Claim C2 (confirmed): starting from a fresh session with `repeat`, `loop`
and `shuffle` all false, for every sequence of enqueue calls and
track-finished transitions - and no skip operations, which the event alphabet
does not contain - the tracks started for playback are exactly an initial
segment of the enqueued tracks in enqueue order: the i-th track started is
the i-th track enqueued. -/
theorem c2_fifo_order (randIns : (n : Nat) → Fin (n + 1) × Fin (n + 1))
    (fuel : Nat) (evs : List Ev) :
    (runEvents resolveAll randIns fuel initialState evs).startedLog =
      (enqueuedOf evs).take
        (runEvents resolveAll randIns fuel initialState evs).startedLog.length := by
  obtain ⟨hacc, -, -, -, -⟩ :=
    runEvents_fifo_inv randIns fuel evs initialState rfl rfl rfl rfl
  have henq : enqueuedOf evs =
      (runEvents resolveAll randIns fuel initialState evs).startedLog ++
        (runEvents resolveAll randIns fuel initialState evs).queue := by
    simpa [initialState] using hacc.symm
  rw [henq, List.take_left]
